import Mathlib

/-!
Verification development for the if-gym repository.

The development shallowly embeds the two components the claims are about:

* the Turn Orchestrator (`GameSession.run` in `packages/core/src/session.ts`),
  modelled as a pure state-passing function over an abstract game and agent,
  with thrown exceptions modelled as `Except String`;
* the Interpreter Session Bridge (`IFVMSAdapter` in
  `packages/interpreters/src/ifvms-adapter.ts`), modelled as a state machine
  driven by a trace of events (start call, engine update events, command
  calls, dispose), emitting observable effects (input deliveries to the
  engine, promise resolutions, thrown errors);
* the reference/aliasing behaviour of `getHistory` / `getState`
  (`session.ts`, `base.ts`), modelled over a small explicit heap.

Timestamps (`new Date()` in the source) are modelled as a `Nat` tick counter;
logging and the unused `turnTimeout` / `saveHistory` configuration fields are
omitted, matching the fact that `GameSession.run` never reads them.
-/

/-- Mirrors `GameTurn` in `packages/core/src/types.ts`; the `Date` timestamp
is modelled as a `Nat` tick. -/
structure GameTurn where
  turnNumber : Nat
  command : String
  response : String
  timestamp : Nat
  deriving Repr, DecidableEq

/-- Mirrors `GameState` in `packages/core/src/types.ts` (the optional
`metadata` record, unused by the session loop, is omitted). -/
structure GameState where
  turnNumber : Nat
  history : List GameTurn
  isEnded : Bool
  deriving Repr, DecidableEq

/-- Mirrors `CommandResult` in `packages/core/src/types.ts` (optional
`score` / `moves` fields, never produced by the adapter, omitted). -/
structure CommandResult where
  output : String
  gameEnded : Bool
  deriving Repr, DecidableEq

/-- Mirrors `AgentAction` in `packages/core/src/types.ts`; the optional
reasoning trace is reduced to its `thoughts` string, which the session only
logs. -/
structure AgentAction where
  command : String
  reasoning : Option String := none
  deriving Repr, DecidableEq

/-- Mirrors `PerformanceMetrics` in `packages/core/src/types.ts` (optional
fields omitted; the session treats metrics as opaque). -/
structure PerformanceMetrics where
  totalTurns : Nat
  success : Bool
  uniqueCommands : Nat
  deriving Repr, DecidableEq

/-- Mirrors `SessionResult` in `packages/core/src/session.ts`. -/
structure SessionResult where
  success : Bool
  turns : Nat
  history : List GameTurn
  metrics : PerformanceMetrics
  error : Option String := none
  deriving Repr, DecidableEq

/-- The game interface the session uses (`IFGame`): `start`, `getState`,
`executeCommand`.  `γ` is the game's internal state, threaded explicitly;
a thrown exception is an `Except.error` carrying its message. -/
structure Game (γ : Type) where
  start : γ → Except String (String × γ)
  getState : γ → GameState
  executeCommand : γ → String → Except String (CommandResult × γ)

/-- The agent interface the session uses (`IFAgent`): its `initialize` method
(named `agentInit` here because that identifier is reserved in Lean), `act`,
`observe`, `getMetrics`.  `α` is the agent's internal state. -/
structure Agent (α : Type) where
  agentInit : α → String → Except String α
  act : α → GameState → Except String (AgentAction × α)
  observe : α → String → String → Except String α
  getMetrics : α → Except String PerformanceMetrics

/-- Outcome of the session's `while` loop: either a normal exit
(turn counter, history, agent state, game state) or a thrown exception
(message, history recorded so far, agent state at the throw). -/
inductive LoopExit (γ α : Type) where
  | normal (turnNumber : Nat) (history : List GameTurn) (a : α) (g : γ)
  | thrown (msg : String) (history : List GameTurn) (a : α)

/-- The body of `GameSession.run`'s `while` loop (session.ts lines 74-113),
translated step for step.  `fuel` is the number of remaining iterations
allowed by the `turnNumber < maxTurns` guard; `now` is the tick used for
`new Date()` timestamps. -/
def sessionLoop (game : Game γ) (agent : Agent α) :
    Nat → γ → α → Nat → List GameTurn → Nat → LoopExit γ α
  | 0, g, a, turnNumber, history, _ => .normal turnNumber history a g
  | fuel + 1, g, a, turnNumber, history, now =>
    let state := game.getState g
    if state.isEnded then .normal turnNumber history a g
    else
      let turnNumber := turnNumber + 1
      match agent.act a state with
      | .error e => .thrown e history a
      | .ok (action, a) =>
        match game.executeCommand g action.command with
        | .error e => .thrown e history a
        | .ok (result, g) =>
          let turn : GameTurn :=
            { turnNumber := turnNumber, command := action.command,
              response := result.output, timestamp := now }
          let history := history ++ [turn]
          match agent.observe a action.command result.output with
          | .error e => .thrown e history a
          | .ok a =>
            if result.gameEnded then .normal turnNumber history a g
            else sessionLoop game agent fuel g a turnNumber history (now + 1)

/-- The `catch` block of `GameSession.run` (session.ts lines 126-134): builds
the failure result; if `getMetrics` itself throws here, the rejection
propagates out of `run`. -/
def sessionCatch (agent : Agent α) (a : α) (msg : String)
    (history : List GameTurn) : Except String SessionResult :=
  match agent.getMetrics a with
  | .error e2 => .error e2
  | .ok m =>
    .ok { success := false, turns := history.length, history := history,
          metrics := m, error := some msg }

/-- `GameSession.run` (session.ts lines 64-135).  `maxTurns?` is the
configured `SessionConfig.maxTurns`; the constructor merge supplies the
default 1000 when it is absent, and the loop guard reads
`this.config.maxTurns || 1000`, so a configured 0 also falls back to 1000. -/
def GameSession.run (game : Game γ) (agent : Agent α)
    (maxTurnsCfg : Option Nat) (g : γ) (a : α) : Except String SessionResult :=
  let maxTurns := maxTurnsCfg.getD 1000
  let bound := if maxTurns = 0 then 1000 else maxTurns
  match game.start g with
  | .error e => sessionCatch agent a e []
  | .ok (initialOutput, g) =>
    match agent.agentInit a initialOutput with
    | .error e => sessionCatch agent a e []
    | .ok a =>
      match sessionLoop game agent bound g a 0 [] 0 with
      | .thrown e history a => sessionCatch agent a e history
      | .normal turnNumber history a _ =>
        match agent.getMetrics a with
        | .ok m =>
          .ok { success := true, turns := turnNumber, history := history,
                metrics := m, error := none }
        | .error e => sessionCatch agent a e history

/-- Projection of a session run used to state results without spelling out
the full history: success flag, history length, error, reported turn count. -/
def runSummary (r : Except String SessionResult) :
    Option (Bool × Nat × Option String × Nat) :=
  r.toOption.map fun res => (res.success, res.history.length, res.error, res.turns)

/-- Constant metrics record returned by the model agents below (the session
treats metrics opaquely, so its value is irrelevant to the claims). -/
def trivialMetrics : PerformanceMetrics :=
  { totalTurns := 0, success := false, uniqueCommands := 0 }

/-- A scripted engine, at the `IFGame` interface the session sees: it starts
normally, answers each command, signals game end on the `n`-th answered
command, and reports `isEnded` once `n` commands have been answered.  Its
state is the number of commands answered so far.  This realizes "an engine
that raises exactly N input requests and then signals termination" from the
orchestrator's point of view: one command/response exchange per request. -/
def scriptedGame (n : Nat) : Game Nat where
  start g := .ok ("initial output", g)
  getState g := { turnNumber := g, history := [], isEnded := n ≤ g }
  executeCommand g _ := .ok ({ output := "room description", gameEnded := g + 1 = n }, g + 1)

/-- A scripted engine that never ends: every command is answered with
`gameEnded := false` and `isEnded` stays false. -/
def neverEndingGame : Game Nat where
  start g := .ok ("initial output", g)
  getState g := { turnNumber := g, history := [], isEnded := false }
  executeCommand g _ := .ok ({ output := "room description", gameEnded := false }, g + 1)

/-- A decision-maker that never throws and always answers the command
`"look"`; its state is unused. -/
def okAgent : Agent Unit where
  agentInit a _ := .ok a
  act a _ := .ok ({ command := "look" }, a)
  observe a _ _ := .ok a
  getMetrics _ := .ok trivialMetrics

/-- A decision-maker whose `act` throws (with message `msg`) on its `k`-th
invocation; its state counts completed `act` calls. -/
def actThrowsAgent (k : Nat) (msg : String) : Agent Nat where
  agentInit a _ := .ok a
  act a _ := if a + 1 = k then .error msg else .ok ({ command := "look" }, a + 1)
  observe a _ _ := .ok a
  getMetrics _ := .ok trivialMetrics

/-- A decision-maker whose `observe` throws (with message `msg`) on its
`k`-th invocation; its state counts completed `observe` calls. -/
def observeThrowsAgent (k : Nat) (msg : String) : Agent Nat where
  agentInit a _ := .ok a
  act a _ := .ok ({ command := "look" }, a)
  observe a _ _ := if a + 1 = k then .error msg else .ok (a + 1)
  getMetrics _ := .ok trivialMetrics

/-- Richer projection of a session run: success flag, full history, error,
reported turn count. -/
def runReport (r : Except String SessionResult) :
    Option (Bool × List GameTurn × Option String × Nat) :=
  r.toOption.map fun res => (res.success, res.history, res.error, res.turns)

/-- The turn record the session loop appends on an iteration that started
with turn counter `tn` and tick `now`, for the model agents above (they all
submit `"look"` and the model games answer `"room description"`). -/
def lookTurn (tn now : Nat) : GameTurn :=
  { turnNumber := tn + 1, command := "look", response := "room description",
    timestamp := now }

/-- The two input modes of the GlkOte protocol (`'line'` / `'char'`). -/
inductive InputMode where
  | line
  | char
  deriving Repr, DecidableEq

/-- One element of a buffer-window line's `content` array: either a raw
string (which `handleUpdate` appends only at odd indices, the even indices
being style names) or an object whose optional `text` field is appended when
truthy. -/
inductive TextPart where
  | str (s : String)
  | obj (text : Option String)
  deriving Repr, DecidableEq

/-- One line of a buffer window's `text` array: a line object with a
`content` array, a bare string, or anything else (skipped). -/
inductive BufferLine where
  | contentLine (parts : List TextPart)
  | strLine (s : String)
  | other
  deriving Repr, DecidableEq

/-- One line of a grid window's `lines` array: optionally a `content` array
of objects with optional `text` fields. -/
structure GridLine where
  content : Option (List (Option String))
  deriving Repr, DecidableEq

/-- One content block of an update event: `handleUpdate` checks `content.text`
first (buffer window), then `content.lines` (grid window / status bar), else
skips the block. -/
inductive ContentBlock where
  | textBlock (text : List BufferLine)
  | linesBlock (lines : List GridLine)
  | neither
  deriving Repr, DecidableEq

/-- An entry of an update event's `input` array.  `mode` is `some` for the
types `'line'` / `'char'` that `handleUpdate`'s `find` matches, `none` for
any other request type. -/
structure InputRequest where
  mode : Option InputMode
  id : Nat
  deriving Repr, DecidableEq

/-- An update event as `handleUpdate` consumes it: an optional generation
number, the `disable` flag, the content blocks, and the input-request array
(absent modelled as `[]`, which behaves identically). -/
structure UpdateData where
  gen : Option Nat
  disable : Bool
  content : List ContentBlock
  input : List InputRequest
  deriving Repr, DecidableEq

/-- Text appended to the output buffer for part `p` at index `i` of a buffer
line's `content` array: `typeof part === 'string' && i % 2 === 1` appends the
string, `typeof part === 'object' && part.text` appends `part.text`. -/
def partText (i : Nat) (p : TextPart) : String :=
  match p with
  | .str s => if i % 2 = 1 then s else ""
  | .obj t =>
    match t with
    | some s => if s = "" then "" else s
    | none => ""

/-- Text appended for one line of a buffer window's `text` array. -/
def extractBufferLine : BufferLine → String
  | .contentLine parts =>
    String.join (parts.enum.map fun ip => partText ip.fst ip.snd) ++ "\n"
  | .strLine s => s ++ "\n"
  | .other => ""

/-- Text appended for one line of a grid window's `lines` array
(`if (part.text) this.outputBuffer += part.text`). -/
def extractGridLine (l : GridLine) : String :=
  match l.content with
  | some parts =>
    String.join (parts.map fun t =>
      match t with
      | some s => if s = "" then "" else s
      | none => "") ++ "\n"
  | none => ""

/-- Text appended for one content block. -/
def extractBlock : ContentBlock → String
  | .textBlock ls => String.join (ls.map extractBufferLine)
  | .linesBlock ls => String.join (ls.map extractGridLine)
  | .neither => ""

/-- All text one update event appends to the output buffer. -/
def extractUpdate (d : UpdateData) : String :=
  String.join (d.content.map extractBlock)

/-- Concatenation of the text extracted from a sequence of update events, in
arrival order. -/
def extracts : List UpdateData → String
  | [] => ""
  | u :: us => extractUpdate u ++ extracts us

/-- `data.input.find(i => i.type === 'line' || i.type === 'char')` (the
`data.input && data.input.length > 0` guard is equivalent to `find` on an
empty list returning nothing). -/
def findReq (l : List InputRequest) : Option InputRequest :=
  l.find? fun r => r.mode.isSome

/-- Identity of the single-slot `inputResolver`: the pending `start()` call,
or a pending `executeCommand()` call identified by a sequence number. -/
inductive ResolverOwner where
  | startOwner
  | execOwner (id : Nat)
  deriving Repr, DecidableEq

/-- Observable effects of a bridge step: an input event delivered to the
engine via `glkOptions.accept`, the resolution of a waiting caller's promise,
or the synchronous `Game not running` throw of `executeCommand`. -/
inductive Effect where
  | deliverInput (mode : InputMode) (value : String) (window : Nat) (gen : Nat)
  | resolved (owner : ResolverOwner) (output : String)
  | threwNotRunning
  deriving Repr, DecidableEq

/-- The `IFVMSAdapter` instance fields relevant to the claims, plus the
inherited `BaseInterpreter.state` fields (`history`, `turnNumber`, `isEnded`)
and two bookkeeping counters (`nextCallId` numbers `executeCommand` calls so
their resolutions can be attributed; `tick` models `new Date()`). -/
structure AdapterState where
  outputBuffer : String := ""
  inputResolver : Option ResolverOwner := none
  isRunning : Bool := false
  currentWindowId : Option Nat := none
  pendingInputType : Option InputMode := none
  generation : Nat := 0
  isEnded : Bool := false
  history : List GameTurn := []
  turnNumber : Nat := 0
  nextCallId : Nat := 0
  tick : Nat := 0
  deriving Repr, DecidableEq

/-- A freshly constructed adapter (after `load`, before `start`). -/
def adapterInit : AdapterState := {}

/-- `if (lastEntry) lastEntry.response = output` on
`this.state.history[this.state.history.length - 1]`. -/
def setLastResponse (out : String) : List GameTurn → List GameTurn
  | [] => []
  | [t] => [{ t with response := out }]
  | t :: ts => t :: setLastResponse out ts

/-- JavaScript `String.prototype.trim()` as applied to the output buffer:
drop whitespace at the leading and trailing edges (modelled executably so
the kernel can evaluate it on concrete strings). -/
def jsTrim (s : String) : String :=
  String.mk (((s.data.dropWhile Char.isWhitespace).reverse.dropWhile
    Char.isWhitespace).reverse)

/-- `IFVMSAdapter.handleUpdate` (ifvms-adapter.ts lines 142-193): adopt the
event's generation if present, mark the session ended on `disable`, append
the extracted text to the output buffer, and if the event carries a line/char
input request, record it as the pending request and, when a caller is
waiting, resolve it with the trimmed buffer and clear the buffer.  An
`executeCommand` resolver also fills in the response of the last history
entry before resolving. -/
def handleUpdate (s : AdapterState) (d : UpdateData) :
    AdapterState × List Effect :=
  let s := match d.gen with
    | some g => { s with generation := g }
    | none => s
  let s := if d.disable then { s with isEnded := true } else s
  let s := { s with outputBuffer := s.outputBuffer ++ extractUpdate d }
  match findReq d.input with
  | none => (s, [])
  | some req =>
    let s := { s with currentWindowId := some req.id, pendingInputType := req.mode }
    match s.inputResolver with
    | none => (s, [])
    | some owner =>
      let output := jsTrim s.outputBuffer
      let s := { s with outputBuffer := "", inputResolver := none }
      let s := match owner with
        | .execOwner _ => { s with history := setLastResponse output s.history }
        | .startOwner => s
      (s, [.resolved owner output])

/-- `command.length > 0 ? command[0] : ' '`: the value delivered for a
char-mode input request. -/
def charValue (command : String) : String :=
  match command.data with
  | c :: _ => String.mk [c]
  | [] => " "

/-- The events driving one bridge session, in the order they reach the
adapter: a `start()` call, an engine update event (the engine invokes
`glkOte.update` synchronously), an `executeCommand(command)` call, a
`dispose()` call. -/
inductive BridgeEvent where
  | startCall
  | update (d : UpdateData)
  | execCall (command : String)
  | disposeCall
  deriving Repr, DecidableEq

/-- One step of the bridge, driven by an event: a `start()` call (which
synchronously registers its resolver and sets `isRunning`), an engine update,
an `executeCommand(command)` call (which throws synchronously when not
running, otherwise pushes a history entry with empty response, post-
increments the turn number, registers its resolver, and delivers the encoded
input when a window currently requests input), or a `dispose()` call.
The source's delivery guard also checks `this.glkOptions?.accept`; that
conjunct is subsumed here because `glkOptions` is set by the engine's init
callback before any update can set `currentWindowId`. -/
def adapterStep (s : AdapterState) : BridgeEvent → AdapterState × List Effect
  | .startCall =>
    ({ s with inputResolver := some .startOwner, isRunning := true }, [])
  | .update d => handleUpdate s d
  | .execCall command =>
    if s.isRunning then
      let turn : GameTurn :=
        { turnNumber := s.turnNumber, command := command, response := "",
          timestamp := s.tick }
      let cid := s.nextCallId
      let s := { s with
        history := s.history ++ [turn], turnNumber := s.turnNumber + 1,
        nextCallId := cid + 1, tick := s.tick + 1,
        inputResolver := some (.execOwner cid) }
      match s.currentWindowId with
      | none => (s, [])
      | some w =>
        match s.pendingInputType with
        | some .char =>
          (s, [.deliverInput .char (charValue command) w s.generation])
        | _ =>
          (s, [.deliverInput .line command w s.generation])
    else
      (s, [.threwNotRunning])
  | .disposeCall => ({ s with isRunning := false }, [])

/-- Process a trace of bridge events in order, collecting all effects. -/
def adapterRun (s : AdapterState) : List BridgeEvent → AdapterState × List Effect
  | [] => (s, [])
  | e :: es =>
    let r := adapterStep s e
    let r' := adapterRun r.fst es
    (r'.fst, r.snd ++ r'.snd)

/-- Generation numbers carried by the update events of a trace, in order. -/
def updateGens : List BridgeEvent → List Nat
  | [] => []
  | .update d :: es =>
    match d.gen with
    | some g => g :: updateGens es
    | none => updateGens es
  | _ :: es => updateGens es

/-- Generation tags on the input deliveries of an effect list, in order. -/
def deliveryGens : List Effect → List Nat
  | [] => []
  | .deliverInput _ _ _ g :: es => g :: deliveryGens es
  | _ :: es => deliveryGens es

/-- Promise resolutions in an effect list, in order. -/
def resolutions : List Effect → List (ResolverOwner × String)
  | [] => []
  | .resolved o out :: es => (o, out) :: resolutions es
  | _ :: es => resolutions es

/-- Input deliveries in an effect list, in order. -/
def deliveries : List Effect → List Effect
  | [] => []
  | .deliverInput m v w g :: es => .deliverInput m v w g :: deliveries es
  | _ :: es => deliveries es

/-- Whether an effect list contains the synchronous `Game not running`
throw. -/
def hasThrow : List Effect → Bool
  | [] => false
  | .threwNotRunning :: _ => true
  | _ :: es => hasThrow es

/-- The last element of a list of generation numbers, or the default `d`
when the list is empty (the adapter's `generation` field starts at 0 and is
overwritten by each update event that carries a `gen`). -/
def lastGenD (d : Nat) : List Nat → Nat
  | [] => d
  | g :: gs => lastGenD g gs

/-- Whether, after a trace, `start()` has been invoked with no later
`dispose()`: exactly the discipline of the `isRunning` flag. -/
def startedNotDisposed : List BridgeEvent → Bool
  | [] => false
  | es => es.foldl (fun b e =>
      match e with
      | .startCall => true
      | .disposeCall => false
      | _ => b) false

/-- A minimal heap for modelling JavaScript reference semantics of the turn
history: `arrays` maps array addresses to lists of turn addresses, `turns`
maps turn addresses to `GameTurn` records.  The orchestrator / interpreter
holds its history as one array address. -/
structure Heap where
  arrays : List (List Nat)
  turns : List GameTurn
  deriving Repr, DecidableEq

/-- The list of turn addresses stored in the array at address `a`. -/
def Heap.readArr (h : Heap) (a : Nat) : List Nat :=
  h.arrays.getD a []

/-- The turn records reachable from the array at address `a`: what a caller
(or the owner itself) observes when reading the history. -/
def Heap.readHistory (h : Heap) (a : Nat) : List GameTurn :=
  (h.readArr a).map fun t =>
    h.turns.getD t { turnNumber := 0, command := "", response := "", timestamp := 0 }

/-- `GameSession.getHistory` (session.ts lines 140-142): `[...this.history]`
allocates a fresh array containing the same turn references.  Returns the
new array's address and the extended heap. -/
def getHistoryOp (h : Heap) (a : Nat) : Nat × Heap :=
  (h.arrays.length, { h with arrays := h.arrays ++ [h.readArr a] })

/-- `BaseInterpreter.getState` (base.ts): `{ ...this.state }` copies the
state object shallowly, so the `history` field of the returned snapshot is
the very same array reference as the internal one. -/
def getStateHistory (_h : Heap) (a : Nat) : Nat := a

/-- A caller pushing a turn (at address `t`) onto the array at address `a`. -/
def Heap.pushTurnRef (h : Heap) (a : Nat) (t : Nat) : Heap :=
  { h with arrays := h.arrays.set a (h.readArr a ++ [t]) }

/-- Allocate a fresh turn record, returning its address. -/
def Heap.allocTurn (h : Heap) (t : GameTurn) : Nat × Heap :=
  (h.turns.length, { h with turns := h.turns ++ [t] })

/-- Sample update event: buffer-window text, no input request. -/
def sampleTextUpdate : UpdateData :=
  { gen := some 1, disable := false,
    content := [.textBlock [.strLine "You are in a room."]],
    input := [] }

/-- Sample update event: styled buffer-window text plus a line input request
on window 7. -/
def sampleReqUpdate : UpdateData :=
  { gen := some 2, disable := false,
    content := [.textBlock [.contentLine [.str "style", .str "Nothing special."]]],
    input := [{ mode := some .line, id := 7 }] }

/-- Adapter state right after `start()` was invoked. -/
def startedState : AdapterState :=
  { adapterInit with isRunning := true, inputResolver := some .startOwner }

/-- Adapter state with a pending char-mode input request on window 3 and
generation 4. -/
def charPendingState : AdapterState :=
  { adapterInit with
    isRunning := true, currentWindowId := some 3,
    pendingInputType := some .char, generation := 4 }

/-- Adapter state that is running but holds no pending input request. -/
def noPendingState : AdapterState := { adapterInit with isRunning := true }

/-- Sample internal state for the heap model: one history array at address 0
holding one turn record. -/
def sampleHeap : Heap :=
  { arrays := [[0]],
    turns := [{ turnNumber := 1, command := "look", response := "You see a room.",
                timestamp := 0 }] }


lemma loop_scripted_ended (n fuel g tn now : Nat) (hist : List GameTurn)
    (hg : n ≤ g) :
    sessionLoop (scriptedGame n) okAgent (fuel + 1) g () tn hist now =
      .normal tn hist () g := by
  simp [sessionLoop, scriptedGame, hg]

lemma loop_scripted_go (n fuel g tn now : Nat) (hist : List GameTurn)
    (hg : ¬ n ≤ g) :
    sessionLoop (scriptedGame n) okAgent (fuel + 1) g () tn hist now =
      (if g + 1 = n then
        LoopExit.normal (tn + 1) (hist ++ [lookTurn tn now]) () (g + 1)
      else
        sessionLoop (scriptedGame n) okAgent fuel (g + 1) () (tn + 1)
          (hist ++ [lookTurn tn now]) (now + 1)) := by
  simp [sessionLoop, scriptedGame, okAgent, hg, lookTurn]

lemma run_eq_of_loop_normal (game : Game γ) (agent : Agent α) (mt : Nat)
    (g0 : γ) (a0 : α) (out : String) (g1 : γ) (a1 : α) (tn : Nat)
    (hist : List GameTurn) (a2 : α) (g2 : γ) (m : PerformanceMetrics)
    (hstart : game.start g0 = .ok (out, g1))
    (hinit : agent.agentInit a0 out = .ok a1)
    (hmt : ¬ mt = 0)
    (hloop : sessionLoop game agent mt g1 a1 0 [] 0 = .normal tn hist a2 g2)
    (hm : agent.getMetrics a2 = .ok m) :
    GameSession.run game agent (some mt) g0 a0 =
      .ok { success := true, turns := tn, history := hist, metrics := m,
            error := none } := by
  simp [GameSession.run, hstart, hinit, if_neg hmt, hloop, hm]

lemma run_eq_of_loop_thrown (game : Game γ) (agent : Agent α) (mt : Nat)
    (g0 : γ) (a0 : α) (out : String) (g1 : γ) (a1 : α) (msg : String)
    (hist : List GameTurn) (a2 : α) (m : PerformanceMetrics)
    (hstart : game.start g0 = .ok (out, g1))
    (hinit : agent.agentInit a0 out = .ok a1)
    (hmt : ¬ mt = 0)
    (hloop : sessionLoop game agent mt g1 a1 0 [] 0 = .thrown msg hist a2)
    (hm : agent.getMetrics a2 = .ok m) :
    GameSession.run game agent (some mt) g0 a0 =
      .ok { success := false, turns := hist.length, history := hist,
            metrics := m, error := some msg } := by
  simp [GameSession.run, sessionCatch, hstart, hinit, if_neg hmt, hloop, hm]

lemma adapterRun_cons (s : AdapterState) (e : BridgeEvent) (es : List BridgeEvent) :
    adapterRun s (e :: es) =
      ((adapterRun (adapterStep s e).fst es).fst,
       (adapterStep s e).snd ++ (adapterRun (adapterStep s e).fst es).snd) := rfl

lemma adapterRun_append (t₁ : List BridgeEvent) : ∀ (s : AdapterState) (t₂ : List BridgeEvent),
    adapterRun s (t₁ ++ t₂) =
      ((adapterRun (adapterRun s t₁).fst t₂).fst,
       (adapterRun s t₁).snd ++ (adapterRun (adapterRun s t₁).fst t₂).snd) := by
  induction t₁ with
  | nil => intro s t₂; simp [adapterRun]
  | cons e es ih =>
    intro s t₂
    rw [List.cons_append, adapterRun_cons, adapterRun_cons, ih]
    simp

lemma handleUpdate_noReq (s : AdapterState) (d : UpdateData)
    (h : findReq d.input = none) :
    handleUpdate s d =
      ({ s with
          generation := match d.gen with | some g => g | none => s.generation,
          isEnded := if d.disable then true else s.isEnded,
          outputBuffer := s.outputBuffer ++ extractUpdate d }, []) := by
  cases hg : d.gen <;> cases hd : d.disable <;>
    simp [handleUpdate, h, hg, hd]

/-- Processing update events that raise no input request only accumulates
text in the buffer: no effects, resolver, window, pending mode and history
untouched. -/
lemma adapterRun_noReq (us : List UpdateData) : ∀ (s : AdapterState),
    (∀ u ∈ us, findReq u.input = none) →
    (adapterRun s (us.map .update)).snd = [] ∧
    (adapterRun s (us.map .update)).fst.outputBuffer = s.outputBuffer ++ extracts us ∧
    (adapterRun s (us.map .update)).fst.inputResolver = s.inputResolver ∧
    (adapterRun s (us.map .update)).fst.history = s.history ∧
    (adapterRun s (us.map .update)).fst.currentWindowId = s.currentWindowId ∧
    (adapterRun s (us.map .update)).fst.pendingInputType = s.pendingInputType := by
  induction us with
  | nil => intro s _; simp [adapterRun, extracts]
  | cons u us ih =>
    intro s h
    have hu : findReq u.input = none := h u (by simp)
    have hrest := ih ({ s with
        generation := match u.gen with | some g => g | none => s.generation,
        isEnded := if u.disable then true else s.isEnded,
        outputBuffer := s.outputBuffer ++ extractUpdate u })
      (fun v hv => h v (by simp [hv]))
    simp only [List.map_cons, adapterRun_cons, adapterStep, handleUpdate_noReq s u hu]
    refine ⟨by simpa using hrest.1, ?_, by simpa using hrest.2.2.1,
      by simpa using hrest.2.2.2.1, by simpa using hrest.2.2.2.2.1,
      by simpa using hrest.2.2.2.2.2⟩
    have := hrest.2.1
    simpa [extracts, String.append_assoc] using this

lemma extracts_append (xs ys : List UpdateData) :
    extracts (xs ++ ys) = extracts xs ++ extracts ys := by
  induction xs with
  | nil => simp [extracts]
  | cons x xs ih => simp [extracts, ih, String.append_assoc]

lemma handleUpdate_req_resolved (s : AdapterState) (d : UpdateData)
    (req : InputRequest) (owner : ResolverOwner)
    (h : findReq d.input = some req) (hres : s.inputResolver = some owner) :
    (handleUpdate s d).snd =
      [.resolved owner (jsTrim (s.outputBuffer ++ extractUpdate d))] ∧
    (handleUpdate s d).fst.outputBuffer = "" := by
  cases owner <;> cases hg : d.gen <;> cases hd : d.disable <;>
    simp [handleUpdate, h, hres, hg, hd]

lemma handleUpdate_isRunning (s : AdapterState) (d : UpdateData) :
    (handleUpdate s d).fst.isRunning = s.isRunning := by
  rcases hg : d.gen with _ | g <;> rcases hd : d.disable <;>
    rcases hf : findReq d.input with _ | req <;>
    rcases hr : s.inputResolver with _ | (_ | id) <;>
    simp [handleUpdate, hg, hd, hf, hr]

lemma execStep_isRunning (s : AdapterState) (cmd : String) :
    (adapterStep s (.execCall cmd)).fst.isRunning = s.isRunning := by
  by_cases h : s.isRunning
  · rcases hw : s.currentWindowId with _ | w
    · simp [adapterStep, h, hw]
    · rcases hp : s.pendingInputType with _ | m
      · simp [adapterStep, h, hw, hp]
      · cases m <;> simp [adapterStep, h, hw, hp]
  · simp [adapterStep, h]

lemma adapterRun_isRunning (t : List BridgeEvent) : ∀ (s : AdapterState),
    (adapterRun s t).fst.isRunning =
      t.foldl (fun b e =>
        match e with
        | .startCall => true
        | .disposeCall => false
        | _ => b) s.isRunning := by
  induction t with
  | nil => intro s; simp [adapterRun]
  | cons e es ih =>
    intro s
    rw [adapterRun_cons]
    cases e with
    | startCall => simp [adapterStep, ih]
    | disposeCall => simp [adapterStep, ih]
    | update d =>
      simp only [List.foldl_cons]
      rw [ih]
      rw [show (adapterStep s (.update d)).fst = (handleUpdate s d).fst from rfl]
      rw [handleUpdate_isRunning]
    | execCall cmd =>
      simp only [List.foldl_cons]
      rw [ih, execStep_isRunning]

lemma startedNotDisposed_eq_foldl (t : List BridgeEvent) :
    startedNotDisposed t =
      t.foldl (fun b e =>
        match e with
        | .startCall => true
        | .disposeCall => false
        | _ => b) false := by
  cases t <;> rfl

lemma exec_hasThrow (s : AdapterState) (cmd : String) :
    hasThrow (adapterStep s (.execCall cmd)).snd = !s.isRunning := by
  by_cases h : s.isRunning
  · rcases hw : s.currentWindowId with _ | w
    · simp [adapterStep, h, hw, hasThrow]
    · rcases hp : s.pendingInputType with _ | m
      · simp [adapterStep, h, hw, hp, hasThrow]
      · cases m <;> simp [adapterStep, h, hw, hp, hasThrow]
  · simp [adapterStep, h, hasThrow]

lemma handleUpdate_generation (s : AdapterState) (d : UpdateData) :
    (handleUpdate s d).fst.generation =
      match d.gen with
      | some g => g
      | none => s.generation := by
  rcases hg : d.gen with _ | g <;> rcases hd : d.disable <;>
    rcases hf : findReq d.input with _ | req <;>
    rcases hr : s.inputResolver with _ | (_ | id) <;>
    simp [handleUpdate, hg, hd, hf, hr]

lemma execStep_generation (s : AdapterState) (cmd : String) :
    (adapterStep s (.execCall cmd)).fst.generation = s.generation := by
  by_cases h : s.isRunning
  · rcases hw : s.currentWindowId with _ | w
    · simp [adapterStep, h, hw]
    · rcases hp : s.pendingInputType with _ | m
      · simp [adapterStep, h, hw, hp]
      · cases m <;> simp [adapterStep, h, hw, hp]
  · simp [adapterStep, h]

lemma lastGenD_cons (d g : Nat) (gs : List Nat) :
    lastGenD d (g :: gs) = lastGenD g gs := rfl

lemma adapterRun_generation (t : List BridgeEvent) : ∀ (s : AdapterState),
    (adapterRun s t).fst.generation = lastGenD s.generation (updateGens t) := by
  induction t with
  | nil => intro s; simp [adapterRun, updateGens, lastGenD]
  | cons e es ih =>
    intro s
    rw [adapterRun_cons]
    cases e with
    | startCall => simp [adapterStep, ih, updateGens, lastGenD]
    | disposeCall => simp [adapterStep, ih, updateGens, lastGenD]
    | execCall cmd =>
      rw [ih]
      rw [show updateGens (.execCall cmd :: es) = updateGens es from rfl]
      rw [execStep_generation]
    | update d =>
      rw [ih]
      rcases hg : d.gen with _ | g
      · rw [show updateGens (.update d :: es) = updateGens es from by
          simp [updateGens, hg]]
        rw [show (adapterStep s (.update d)).fst = (handleUpdate s d).fst from rfl,
          handleUpdate_generation, hg]
      · rw [show updateGens (.update d :: es) = g :: updateGens es from by
          simp [updateGens, hg]]
        rw [show (adapterStep s (.update d)).fst = (handleUpdate s d).fst from rfl,
          handleUpdate_generation, hg, lastGenD_cons]

lemma deliveryGens_append (l1 l2 : List Effect) :
    deliveryGens (l1 ++ l2) = deliveryGens l1 ++ deliveryGens l2 := by
  induction l1 with
  | nil => simp [deliveryGens]
  | cons e es ih => cases e <;> simp [deliveryGens, ih]

lemma handleUpdate_deliveryGens (s : AdapterState) (d : UpdateData) :
    deliveryGens (handleUpdate s d).snd = [] := by
  rcases hg : d.gen with _ | g <;> rcases hd : d.disable <;>
    rcases hf : findReq d.input with _ | req <;>
    rcases hr : s.inputResolver with _ | (_ | id) <;>
    simp [handleUpdate, hg, hd, hf, hr, deliveryGens]

lemma execStep_deliveryGens (s : AdapterState) (cmd : String) :
    deliveryGens (adapterStep s (.execCall cmd)).snd = [] ∨
    deliveryGens (adapterStep s (.execCall cmd)).snd = [s.generation] := by
  by_cases h : s.isRunning
  · rcases hw : s.currentWindowId with _ | w
    · left; simp [adapterStep, h, hw, deliveryGens]
    · rcases hp : s.pendingInputType with _ | m
      · right; simp [adapterStep, h, hw, hp, deliveryGens]
      · cases m <;> right <;> simp [adapterStep, h, hw, hp, deliveryGens]
  · left; simp [adapterStep, h, deliveryGens]

lemma chain_le_cons_of_le {a b : Nat} {l : List Nat} (hab : a ≤ b)
    (h : List.Chain' (· ≤ ·) (b :: l)) : List.Chain' (· ≤ ·) (a :: l) := by
  cases l with
  | nil => simp
  | cons c l =>
    rw [List.chain'_cons] at h ⊢
    exact ⟨le_trans hab h.1, h.2⟩

/-- The adapter re-reads `this.generation` at each delivery, and the
generation field follows the update events; so if the engine's generation
tags arrive non-decreasing, the tags on successive deliveries are
non-decreasing too. -/
lemma deliveryGens_chain (t : List BridgeEvent) : ∀ (s : AdapterState),
    List.Chain' (· ≤ ·) (s.generation :: updateGens t) →
    List.Chain' (· ≤ ·) (s.generation :: deliveryGens (adapterRun s t).snd) := by
  induction t with
  | nil => intro s _; simp [adapterRun, deliveryGens]
  | cons e es ih =>
    intro s h
    rw [adapterRun_cons]
    cases e with
    | startCall =>
      have := ih (adapterStep s .startCall).fst
        (by rw [show (adapterStep s .startCall).fst.generation = s.generation from rfl]
            exact h)
      rw [show (adapterStep s .startCall).fst.generation = s.generation from rfl] at this
      simpa [adapterStep, deliveryGens] using this
    | disposeCall =>
      have := ih (adapterStep s .disposeCall).fst
        (by rw [show (adapterStep s .disposeCall).fst.generation = s.generation from rfl]
            exact h)
      rw [show (adapterStep s .disposeCall).fst.generation = s.generation from rfl] at this
      simpa [adapterStep, deliveryGens] using this
    | execCall cmd =>
      have hgen := execStep_generation s cmd
      have hrec := ih (adapterStep s (.execCall cmd)).fst (by rw [hgen]; exact h)
      rw [hgen] at hrec
      rw [deliveryGens_append]
      rcases execStep_deliveryGens s cmd with hd | hd <;> rw [hd]
      · simpa using hrec
      · simp only [List.cons_append, List.nil_append]
        rw [List.chain'_cons]
        exact ⟨le_refl _, hrec⟩
    | update d =>
      have hgen := handleUpdate_generation s d
      rw [deliveryGens_append,
        show (adapterStep s (.update d)).snd = (handleUpdate s d).snd from rfl,
        handleUpdate_deliveryGens]
      rcases hg : d.gen with _ | g
      · have hg' : (adapterStep s (.update d)).fst.generation = s.generation := by
          rw [show (adapterStep s (.update d)).fst = (handleUpdate s d).fst from rfl, hgen, hg]
        have hrec := ih (adapterStep s (.update d)).fst (by
          rw [hg']
          have : updateGens (.update d :: es) = updateGens es := by simp [updateGens, hg]
          rw [this] at h
          exact h)
        rw [hg'] at hrec
        simpa using hrec
      · have hg' : (adapterStep s (.update d)).fst.generation = g := by
          rw [show (adapterStep s (.update d)).fst = (handleUpdate s d).fst from rfl, hgen, hg]
        have hug : updateGens (.update d :: es) = g :: updateGens es := by
          simp [updateGens, hg]
        rw [hug, List.chain'_cons] at h
        have hrec := ih (adapterStep s (.update d)).fst (by rw [hg']; exact h.2)
        rw [hg'] at hrec
        simpa using chain_le_cons_of_le h.1 hrec

lemma execStep_gens_all (s : AdapterState) (cmd : String) :
    (deliveryGens (adapterStep s (.execCall cmd)).snd).all
      (fun g => g = s.generation) = true := by
  rcases execStep_deliveryGens s cmd with h | h <;> simp [h]

lemma getD_append_self (l : List (List Nat)) (x : List Nat) :
    (l ++ [x]).getD l.length [] = x := by
  simp [List.getD_eq_getElem?_getD]

lemma getD_append_lt (l l' : List (List Nat)) (n : Nat) (hn : n < l.length) :
    (l ++ l').getD n [] = l.getD n [] := by
  simp [List.getD_eq_getElem?_getD, List.getElem?_append, hn]

lemma getD_set_ne (l : List (List Nat)) (i j : Nat) (v : List Nat) (hij : i ≠ j) :
    (l.set i v).getD j [] = l.getD j [] := by
  simp [List.getD_eq_getElem?_getD, List.getElem?_set_ne hij]

lemma getD_set_self (l : List (List Nat)) (i : Nat) (v : List Nat) (hi : i < l.length) :
    (l.set i v).getD i [] = v := by
  simp [List.getD_eq_getElem?_getD, List.getElem?_set_self, hi]

lemma range_map_lookTurn (tn now m : Nat) :
    (List.range (m + 1)).map (fun i => lookTurn (tn + i) (now + i)) =
      lookTurn tn now ::
        (List.range m).map (fun i => lookTurn (tn + 1 + i) (now + 1 + i)) := by
  rw [List.range_succ_eq_map, List.map_cons, List.map_map]
  congr 1
  apply List.map_congr_left
  intro i _
  simp only [Function.comp_apply, lookTurn, GameTurn.mk.injEq, and_true, true_and]
  omega

lemma scripted_loop (n : Nat) : ∀ (fuel g tn now : Nat) (hist : List GameTurn),
    ∃ g', sessionLoop (scriptedGame n) okAgent fuel g () tn hist now =
      LoopExit.normal (tn + min (n - g) fuel)
        (hist ++ (List.range (min (n - g) fuel)).map
          (fun i => lookTurn (tn + i) (now + i))) () g' := by
  intro fuel
  induction fuel with
  | zero =>
    intro g tn now hist
    exact ⟨g, by simp [sessionLoop]⟩
  | succ fuel ih =>
    intro g tn now hist
    by_cases hg : n ≤ g
    · have hmin : min (n - g) (fuel + 1) = 0 := by omega
      exact ⟨g, by rw [loop_scripted_ended n fuel g tn now hist hg, hmin]; simp⟩
    · by_cases hend : g + 1 = n
      · have hmin : min (n - g) (fuel + 1) = 1 := by omega
        refine ⟨g + 1, ?_⟩
        rw [loop_scripted_go n fuel g tn now hist hg, if_pos hend, hmin]
        rw [show List.range 1 = [0] from rfl]
        simp [lookTurn]
      · obtain ⟨g', heq⟩ := ih (g + 1) (tn + 1) (now + 1) (hist ++ [lookTurn tn now])
        have hmin : min (n - g) (fuel + 1) = min (n - (g + 1)) fuel + 1 := by omega
        refine ⟨g', ?_⟩
        rw [loop_scripted_go n fuel g tn now hist hg, if_neg hend, heq, hmin,
          range_map_lookTurn]
        have harith : tn + 1 + min (n - (g + 1)) fuel =
            tn + (min (n - (g + 1)) fuel + 1) := by omega
        rw [harith]
        simp

lemma loop_actThrows_throw (k fuel g a tn now : Nat) (msg : String)
    (hist : List GameTurn) (hk : a + 1 = k) :
    sessionLoop neverEndingGame (actThrowsAgent k msg) (fuel + 1) g a tn hist now =
      LoopExit.thrown msg hist a := by
  simp [sessionLoop, neverEndingGame, actThrowsAgent, hk]

lemma loop_actThrows_go (k fuel g a tn now : Nat) (msg : String)
    (hist : List GameTurn) (hk : ¬ a + 1 = k) :
    sessionLoop neverEndingGame (actThrowsAgent k msg) (fuel + 1) g a tn hist now =
      sessionLoop neverEndingGame (actThrowsAgent k msg) fuel (g + 1) (a + 1) (tn + 1)
        (hist ++ [lookTurn tn now]) (now + 1) := by
  simp [sessionLoop, neverEndingGame, actThrowsAgent, hk, lookTurn]

lemma actThrows_loop (k : Nat) (msg : String) :
    ∀ (fuel a g tn now : Nat) (hist : List GameTurn), a < k → k ≤ a + fuel →
    sessionLoop neverEndingGame (actThrowsAgent k msg) fuel g a tn hist now =
      LoopExit.thrown msg
        (hist ++ (List.range (k - 1 - a)).map (fun i => lookTurn (tn + i) (now + i)))
        (k - 1) := by
  intro fuel
  induction fuel with
  | zero => intro a g tn now hist h1 h2; omega
  | succ fuel ih =>
    intro a g tn now hist h1 h2
    by_cases hk : a + 1 = k
    · rw [loop_actThrows_throw k fuel g a tn now msg hist hk]
      have h0 : k - 1 - a = 0 := by omega
      have ha : a = k - 1 := by omega
      rw [h0, ha]
      simp
    · rw [loop_actThrows_go k fuel g a tn now msg hist hk,
        ih (a + 1) (g + 1) (tn + 1) (now + 1) (hist ++ [lookTurn tn now])
          (by omega) (by omega)]
      have hm : k - 1 - a = (k - 1 - (a + 1)) + 1 := by omega
      rw [hm, range_map_lookTurn]
      simp

lemma loop_observeThrows_throw (k fuel g a tn now : Nat) (msg : String)
    (hist : List GameTurn) (hk : a + 1 = k) :
    sessionLoop neverEndingGame (observeThrowsAgent k msg) (fuel + 1) g a tn hist now =
      LoopExit.thrown msg (hist ++ [lookTurn tn now]) a := by
  simp [sessionLoop, neverEndingGame, observeThrowsAgent, hk, lookTurn]

lemma loop_observeThrows_go (k fuel g a tn now : Nat) (msg : String)
    (hist : List GameTurn) (hk : ¬ a + 1 = k) :
    sessionLoop neverEndingGame (observeThrowsAgent k msg) (fuel + 1) g a tn hist now =
      sessionLoop neverEndingGame (observeThrowsAgent k msg) fuel (g + 1) (a + 1) (tn + 1)
        (hist ++ [lookTurn tn now]) (now + 1) := by
  simp [sessionLoop, neverEndingGame, observeThrowsAgent, hk, lookTurn]

lemma observeThrows_loop (k : Nat) (msg : String) :
    ∀ (fuel a g tn now : Nat) (hist : List GameTurn), a < k → k ≤ a + fuel →
    sessionLoop neverEndingGame (observeThrowsAgent k msg) fuel g a tn hist now =
      LoopExit.thrown msg
        (hist ++ (List.range (k - a)).map (fun i => lookTurn (tn + i) (now + i)))
        (k - 1) := by
  intro fuel
  induction fuel with
  | zero => intro a g tn now hist h1 h2; omega
  | succ fuel ih =>
    intro a g tn now hist h1 h2
    by_cases hk : a + 1 = k
    · rw [loop_observeThrows_throw k fuel g a tn now msg hist hk]
      have h0 : k - a = 1 := by omega
      have ha : a = k - 1 := by omega
      rw [h0, ha]
      rw [show List.range 1 = [0] from rfl]
      simp [lookTurn]
    · rw [loop_observeThrows_go k fuel g a tn now msg hist hk,
        ih (a + 1) (g + 1) (tn + 1) (now + 1) (hist ++ [lookTurn tn now])
          (by omega) (by omega)]
      have hm : k - a = (k - (a + 1)) + 1 := by omega
      rw [hm, range_map_lookTurn]
      simp

/-- Claim C2 (amended): for a scripted engine that answers exactly n
commands and then signals termination, and every configured maxTurns of at
least 1 (the source treats a configured 0 like an absent value: the loop
guard reads `maxTurns || 1000`), `GameSession.run` succeeds with history
exactly the turns 1, 2, ..., min n maxTurns — none lost, none duplicated —
and reports that turn count. -/
theorem run_scripted_min (n maxTurns : Nat) (h : 1 ≤ maxTurns) :
    runReport (GameSession.run (scriptedGame n) okAgent (some maxTurns) 0 ()) =
      some (true, (List.range (min n maxTurns)).map (fun i => lookTurn i i),
        none, min n maxTurns) := by
  obtain ⟨g', heq⟩ := scripted_loop n maxTurns 0 0 0 []
  simp only [Nat.zero_add, Nat.sub_zero, List.nil_append] at heq
  rw [run_eq_of_loop_normal (scriptedGame n) okAgent maxTurns 0 () "initial output" 0 ()
      (min n maxTurns) ((List.range (min n maxTurns)).map (fun i => lookTurn i i))
      () g' trivialMetrics rfl rfl (by omega) heq rfl]
  rfl

/-- Claim C2 counterexample: the claim as stated fails for a configured
maxTurns of 0 — the loop guard `maxTurns || 1000` replaces 0 by 1000, so
with N = 1 the run records 1 turn although min(N, maxTurns) = 0. -/
theorem run_maxTurns_zero_cex :
    runSummary (GameSession.run (scriptedGame 1) okAgent (some 0) 0 ()) =
      some (true, 1, none, 1) ∧ min 1 0 = 0 := ⟨rfl, rfl⟩

/-- Claim C2 witness: the amended theorem at n = 3, maxTurns = 2. -/
theorem run_scripted_min_witness :
    runReport (GameSession.run (scriptedGame 3) okAgent (some 2) 0 ()) =
      some (true, (List.range (min 3 2)).map (fun i => lookTurn i i),
        none, min 3 2) :=
  run_scripted_min 3 2 (by decide)

/-- Claim C3 (amended): if the decision-maker's `act` throws on turn k (with
k within the turn budget), `run` does not rethrow: it returns success =
false, history exactly the k-1 turns completed before the failure, and
`error` set to the thrown error's message — which is non-empty exactly when
that message is non-empty. -/
theorem run_actThrows (k maxTurns : Nat) (msg : String)
    (h1 : 1 ≤ k) (h2 : k ≤ maxTurns) :
    runReport (GameSession.run neverEndingGame (actThrowsAgent k msg) (some maxTurns) 0 0) =
      some (false, (List.range (k - 1)).map (fun i => lookTurn i i),
        some msg, k - 1) := by
  have heq := actThrows_loop k msg maxTurns 0 0 0 0 [] (by omega) (by omega)
  simp only [Nat.zero_add, Nat.sub_zero, List.nil_append] at heq
  rw [run_eq_of_loop_thrown neverEndingGame (actThrowsAgent k msg) maxTurns 0 0
      "initial output" 0 0 msg ((List.range (k - 1)).map (fun i => lookTurn i i))
      (k - 1) trivialMetrics rfl rfl (by omega) heq rfl]
  show some (false, (List.range (k - 1)).map (fun i => lookTurn i i), some msg,
      ((List.range (k - 1)).map (fun i => lookTurn i i)).length) =
    some (false, (List.range (k - 1)).map (fun i => lookTurn i i), some msg, k - 1)
  simp

/-- Claim C3 counterexample: a decision-maker throwing an error whose
message is empty yields `error = some ""`, so the error string the claim
promises to be non-empty is empty. -/
theorem run_actThrows_empty_message_cex :
    runSummary (GameSession.run neverEndingGame (actThrowsAgent 1 "") (some 5) 0 0) =
      some (false, 0, some "", 0) := rfl

/-- Claim C3 witness: the amended theorem at k = 2, maxTurns = 5. -/
theorem run_actThrows_witness :
    runReport (GameSession.run neverEndingGame (actThrowsAgent 2 "boom") (some 5) 0 0) =
      some (false, (List.range (2 - 1)).map (fun i => lookTurn i i),
        some "boom", 2 - 1) :=
  run_actThrows 2 5 "boom" (by decide) (by decide)

/-- Claim C7 (amended): if the decision-maker's `observe` throws on turn k,
the loop does NOT continue — `observe` is awaited inside the session's
try block, so the failure aborts the loop like any other: `run` returns
success = false, history exactly the k completed turns (the turn whose
observation failed included, as it is appended before `observe` is called),
and the failure surfaced in `SessionResult.error` rather than rethrown. -/
theorem run_observeThrows (k maxTurns : Nat) (msg : String)
    (h1 : 1 ≤ k) (h2 : k ≤ maxTurns) :
    runReport (GameSession.run neverEndingGame (observeThrowsAgent k msg) (some maxTurns) 0 0) =
      some (false, (List.range k).map (fun i => lookTurn i i),
        some msg, k) := by
  have heq := observeThrows_loop k msg maxTurns 0 0 0 0 [] (by omega) (by omega)
  simp only [Nat.zero_add, Nat.sub_zero, List.nil_append] at heq
  rw [run_eq_of_loop_thrown neverEndingGame (observeThrowsAgent k msg) maxTurns 0 0
      "initial output" 0 0 msg ((List.range k).map (fun i => lookTurn i i))
      (k - 1) trivialMetrics rfl rfl (by omega) heq rfl]
  show some (false, (List.range k).map (fun i => lookTurn i i), some msg,
      ((List.range k).map (fun i => lookTurn i i)).length) =
    some (false, (List.range k).map (fun i => lookTurn i i), some msg, k)
  simp

/-- Claim C7 counterexample: with an engine good for 3 turns and a
decision-maker whose observation hook throws on turn 1, the run stops with
exactly 1 recorded turn and success = false, while the identical engine with
a non-throwing decision-maker completes all 3 turns — the loop did not
continue past the observation failure. -/
theorem run_observeThrows_aborts_cex :
    runSummary (GameSession.run (scriptedGame 3) (observeThrowsAgent 1 "agent failed") (some 3) 0 0) =
      some (false, 1, some "agent failed", 1) ∧
    runSummary (GameSession.run (scriptedGame 3) okAgent (some 3) 0 ()) =
      some (true, 3, none, 3) := ⟨rfl, rfl⟩

/-- Claim C7 witness: the amended theorem at k = 2, maxTurns = 5. -/
theorem run_observeThrows_witness :
    runReport (GameSession.run neverEndingGame (observeThrowsAgent 2 "boom") (some 5) 0 0) =
      some (false, (List.range 2).map (fun i => lookTurn i i),
        some "boom", 2) :=
  run_observeThrows 2 5 "boom" (by decide) (by decide)

/-- Claim C1: starting from a freshly cleared buffer with a caller waiting
(the state right after the previous resolution, the claim's "between two
consecutive input requests"), processing any sequence of update events that
raise no input request followed by one that does emits no intermediate
effect, accumulates exactly the concatenation of the extracted text in
arrival order, and resolves the waiting call with that concatenation trimmed
once at the edges, clearing the buffer exactly at that resolution. -/
theorem bridge_output_concat (s : AdapterState) (us : List UpdateData)
    (u : UpdateData) (owner : ResolverOwner)
    (hbuf : s.outputBuffer = "") (hres : s.inputResolver = some owner)
    (hmid : ∀ v ∈ us, findReq v.input = none)
    (hfin : (findReq u.input).isSome) :
    (adapterRun s (us.map .update)).snd = [] ∧
    (adapterRun s (us.map .update)).fst.outputBuffer = extracts us ∧
    (adapterRun s (us.map .update ++ [.update u])).snd =
      [.resolved owner (jsTrim (extracts (us ++ [u])))] ∧
    (adapterRun s (us.map .update ++ [.update u])).fst.outputBuffer = "" := by
  obtain ⟨heff, hb, hr, _, _, _⟩ := adapterRun_noReq us s hmid
  obtain ⟨req, hreq⟩ := Option.isSome_iff_exists.mp hfin
  have hb' : (adapterRun s (us.map .update)).fst.outputBuffer = extracts us := by
    rw [hb, hbuf]; simp
  have hres' : (adapterRun s (us.map .update)).fst.inputResolver = some owner := by
    rw [hr, hres]
  obtain ⟨hfx, hbx⟩ :=
    handleUpdate_req_resolved (adapterRun s (us.map .update)).fst u req owner hreq hres'
  refine ⟨heff, hb', ?_, ?_⟩
  · rw [adapterRun_append, heff]
    have h1 : (adapterRun (adapterRun s (us.map .update)).fst [.update u]).snd =
        (handleUpdate (adapterRun s (us.map .update)).fst u).snd := by
      simp [adapterRun, adapterStep]
    rw [h1, hfx, hb', extracts_append]
    simp [extracts]
  · rw [adapterRun_append]
    have h1 : (adapterRun (adapterRun s (us.map .update)).fst [.update u]).fst =
        (handleUpdate (adapterRun s (us.map .update)).fst u).fst := by
      simp [adapterRun, adapterStep]
    rw [h1, hbx]

/-- Claim C1 witness: a started bridge receives one request-free text event
and then one event with text and a line input request; the resolution
carries the trimmed concatenation and the buffer ends cleared. -/
theorem bridge_output_concat_witness :
    (adapterRun startedState ([sampleTextUpdate].map .update)).snd = [] ∧
    (adapterRun startedState ([sampleTextUpdate].map .update)).fst.outputBuffer =
      extracts [sampleTextUpdate] ∧
    (adapterRun startedState ([sampleTextUpdate].map .update ++ [.update sampleReqUpdate])).snd =
      [.resolved .startOwner (jsTrim (extracts ([sampleTextUpdate] ++ [sampleReqUpdate])))] ∧
    (adapterRun startedState
      ([sampleTextUpdate].map .update ++ [.update sampleReqUpdate])).fst.outputBuffer = "" :=
  bridge_output_concat startedState [sampleTextUpdate] sampleReqUpdate .startOwner rfl rfl
    (by decide) (by decide)

/-- Claim C4 (amended): after any event trace, `executeCommand` fails with
the `Game not running` error exactly when `start()` has not yet been INVOKED
(not: completed) or `dispose()` has been called since — `isRunning` is set
synchronously inside `start()` before the engine produces anything; in
particular a call made while a pending input request is held between
`start()` completion and `dispose()` does not fail. -/
theorem executeCommand_throws_iff (t : List BridgeEvent) (cmd : String) :
    hasThrow (adapterStep (adapterRun adapterInit t).fst (.execCall cmd)).snd =
      !(startedNotDisposed t) := by
  rw [exec_hasThrow, adapterRun_isRunning, startedNotDisposed_eq_foldl]
  rfl

/-- Claim C4 counterexample: a call made after `start()` was invoked but
before it completed (no update processed, so nothing has resolved yet) does
NOT fail with the error — it even records a history entry — refuting the
claim that every call before `start()` completion fails. -/
theorem executeCommand_before_start_completes_cex :
    resolutions (adapterRun adapterInit [.startCall]).snd = [] ∧
    hasThrow (adapterStep (adapterRun adapterInit [.startCall]).fst (.execCall "look")).snd = false ∧
    (adapterStep (adapterRun adapterInit [.startCall]).fst
      (.execCall "look")).fst.history.length = 1 := ⟨rfl, rfl, rfl⟩

/-- Claim C5: every input delivery an `executeCommand` call emits is tagged
with the adapter's current generation, which equals the generation of the
most recently processed update event that carried one (0 before any); and
provided the engine's update events carry non-decreasing generation numbers
(the protocol invariant stated by the spec's data model), the tags on
successive deliveries are monotonically non-decreasing. -/
theorem bridge_generation_tags (t₁ t : List BridgeEvent) (cmd : String)
    (hmono : List.Chain' (· ≤ ·) (updateGens t)) :
    (deliveryGens (adapterStep (adapterRun adapterInit t₁).fst (.execCall cmd)).snd).all
        (fun g => g = lastGenD 0 (updateGens t₁)) = true ∧
    List.Chain' (· ≤ ·) (deliveryGens (adapterRun adapterInit t).snd) := by
  constructor
  · have hinv := adapterRun_generation t₁ adapterInit
    have hall := execStep_gens_all (adapterRun adapterInit t₁).fst cmd
    rw [hinv] at hall
    exact hall
  · have h0 : List.Chain' (· ≤ ·) (adapterInit.generation :: updateGens t) := by
      show List.Chain' (· ≤ ·) (0 :: updateGens t)
      cases hu : updateGens t with
      | nil => simp
      | cons g gs =>
        rw [List.chain'_cons]
        exact ⟨Nat.zero_le g, hu ▸ hmono⟩
    exact (deliveryGens_chain t adapterInit h0).tail

/-- Claim C5 witness: concrete traces with generations 1 and 2. -/
theorem bridge_generation_tags_witness :
    (deliveryGens (adapterStep
        (adapterRun adapterInit [.startCall, .update sampleReqUpdate]).fst
        (.execCall "look")).snd).all
      (fun g => g = lastGenD 0 (updateGens [.startCall, .update sampleReqUpdate])) = true ∧
    List.Chain' (· ≤ ·) (deliveryGens (adapterRun adapterInit
      [.startCall, .update sampleTextUpdate, .update sampleReqUpdate, .execCall "look"]).snd) :=
  bridge_generation_tags [.startCall, .update sampleReqUpdate]
    [.startCall, .update sampleTextUpdate, .update sampleReqUpdate, .execCall "look"]
    "look" (by
      rw [show updateGens [.startCall, .update sampleTextUpdate, .update sampleReqUpdate,
        .execCall "look"] = [1, 2] from rfl]
      simp [List.chain'_cons])

/-- Claim C6: with a window holding a pending request, `executeCommand`
delivers the full command string in line mode, and in char mode the value
`command.length > 0 ? command[0] : ' '` — the first character of a non-empty
command, a single space for the empty command, in every case a payload of
exactly one character, never empty. -/
theorem executeCommand_encoding (s : AdapterState) (cmd : String) (w : Nat)
    (hrun : s.isRunning = true) (hw : s.currentWindowId = some w) :
    (s.pendingInputType = some InputMode.line →
      (adapterStep s (.execCall cmd)).snd = [.deliverInput .line cmd w s.generation]) ∧
    (s.pendingInputType = some InputMode.char →
      (adapterStep s (.execCall cmd)).snd =
        [.deliverInput .char (charValue cmd) w s.generation]) ∧
    (∀ c cs, cmd.data = c :: cs → charValue cmd = String.mk [c]) ∧
    (cmd = "" → charValue cmd = " ") ∧
    (charValue cmd).length = 1 := by
  refine ⟨?_, ?_, ?_, ?_, ?_⟩
  · intro hp; simp [adapterStep, hrun, hw, hp]
  · intro hp; simp [adapterStep, hrun, hw, hp]
  · intro c cs hc; simp [charValue, hc]
  · intro hc; subst hc; rfl
  · rcases hd : cmd.data with _ | ⟨c, cs⟩ <;> simp [charValue, hd, String.length]

/-- Claim C6 witness: a pending char-mode request fed the empty command
delivers a single space. -/
theorem executeCommand_encoding_witness :
    (adapterStep charPendingState (.execCall "")).snd =
      [.deliverInput .char (charValue "") 3 charPendingState.generation] :=
  (executeCommand_encoding charPendingState "" 3 rfl rfl).2.1 (by rfl)

/-- Claim C8: the adapter's `executeCommand` records history entries with
the POST-incremented `this.state.turnNumber++`, whose `BaseInterpreter`
initial value is 0 — so the first two recorded turns carry turn numbers 0
and 1, although `types.ts` documents `GameTurn.turnNumber` as starting at 1.
This theorem evaluates the adapter at the failing input. -/
theorem adapter_turnNumber_starts_at_zero :
    ((adapterRun adapterInit
        [.startCall, .update sampleReqUpdate, .execCall "look",
         .update sampleReqUpdate, .execCall "north"]).fst.history.map
      (fun t => t.turnNumber)) = [0, 1] := rfl

/-- Claim C9 (amended): `getHistory`'s `[...this.history]` copies the array,
so appending to the returned array leaves the internal history unchanged and
the copy initially holds the very same turn references (hence element
mutation writes through); `getState`'s `{ ...this.state }` shares the
internal history array itself, so even appending through the returned
snapshot writes through to the internal history. -/
theorem history_copy_semantics (h : Heap) (a tAddr : Nat)
    (ha : a < h.arrays.length) :
    Heap.readHistory (Heap.pushTurnRef (getHistoryOp h a).snd (getHistoryOp h a).fst tAddr) a =
      h.readHistory a ∧
    Heap.readArr (getHistoryOp h a).snd (getHistoryOp h a).fst = h.readArr a ∧
    getStateHistory h a = a ∧
    (Heap.readArr (Heap.pushTurnRef h (getStateHistory h a) tAddr) a).length =
      (h.readArr a).length + 1 := by
  have hne : h.arrays.length ≠ a := by omega
  refine ⟨?_, ?_, rfl, ?_⟩
  · unfold Heap.readHistory Heap.pushTurnRef getHistoryOp Heap.readArr
    simp only
    rw [getD_set_ne _ _ _ _ hne, getD_append_lt _ _ _ ha]
  · unfold getHistoryOp Heap.readArr
    simp only
    rw [getD_append_self]
  · unfold Heap.pushTurnRef getStateHistory Heap.readArr
    simp only
    rw [getD_set_self]
    · simp
    · exact ha

/-- Claim C9 counterexample: a caller appending a turn to the history of the
snapshot returned by `getState` changes the orchestrator-visible internal
history (its observed length grows from 1 to 2), refuting the claim that
mutating any returned snapshot leaves internal state unchanged. -/
theorem getState_shared_history_cex :
    getStateHistory sampleHeap 0 = 0 ∧
    (Heap.readHistory
      (Heap.pushTurnRef
        (sampleHeap.allocTurn { turnNumber := 2, command := "go", response := "",
                                timestamp := 1 }).snd
        (getStateHistory sampleHeap 0)
        (sampleHeap.allocTurn { turnNumber := 2, command := "go", response := "",
                                timestamp := 1 }).fst) 0).length = 2 ∧
    (sampleHeap.readHistory 0).length = 1 := ⟨rfl, rfl, rfl⟩

/-- Claim C9 witness: the amended theorem on the sample heap. -/
theorem history_copy_semantics_witness :
    Heap.readHistory (Heap.pushTurnRef (getHistoryOp sampleHeap 0).snd
        (getHistoryOp sampleHeap 0).fst 5) 0 =
      sampleHeap.readHistory 0 ∧
    Heap.readArr (getHistoryOp sampleHeap 0).snd (getHistoryOp sampleHeap 0).fst =
      sampleHeap.readArr 0 ∧
    getStateHistory sampleHeap 0 = 0 ∧
    (Heap.readArr (Heap.pushTurnRef sampleHeap (getStateHistory sampleHeap 0) 5) 0).length =
      (sampleHeap.readArr 0).length + 1 :=
  history_copy_semantics sampleHeap 0 5 (by decide)

/-- Claim C10 (amended): calling `executeCommand` while running but with no
window requesting input appends a history entry with empty response and the
post-incremented turn number, delivers no input event, and does not settle
at the call — its resolver is registered and the promise can only settle
later, if some update event raises an input request — and the state mutation
is never rolled back. -/
theorem executeCommand_no_pending (s : AdapterState) (cmd : String)
    (hrun : s.isRunning = true) (hw : s.currentWindowId = none) :
    (adapterStep s (.execCall cmd)).fst.history =
      s.history ++ [{ turnNumber := s.turnNumber, command := cmd, response := "",
                      timestamp := s.tick }] ∧
    (adapterStep s (.execCall cmd)).fst.turnNumber = s.turnNumber + 1 ∧
    deliveries (adapterStep s (.execCall cmd)).snd = [] ∧
    resolutions (adapterStep s (.execCall cmd)).snd = [] ∧
    (adapterStep s (.execCall cmd)).fst.inputResolver = some (.execOwner s.nextCallId) := by
  simp [adapterStep, hrun, hw, deliveries, resolutions]

/-- Claim C10 witness: the amended theorem on a running adapter with no
pending request. -/
theorem executeCommand_no_pending_witness :
    (adapterStep noPendingState (.execCall "wait")).fst.history =
      noPendingState.history ++
        [{ turnNumber := noPendingState.turnNumber, command := "wait", response := "",
           timestamp := noPendingState.tick }] ∧
    (adapterStep noPendingState (.execCall "wait")).fst.turnNumber =
      noPendingState.turnNumber + 1 ∧
    deliveries (adapterStep noPendingState (.execCall "wait")).snd = [] ∧
    resolutions (adapterStep noPendingState (.execCall "wait")).snd = [] ∧
    (adapterStep noPendingState (.execCall "wait")).fst.inputResolver =
      some (.execOwner noPendingState.nextCallId) :=
  executeCommand_no_pending noPendingState "wait" rfl rfl

/-- Claim C10 counterexample: the promise of a call made with no pending
request is NOT guaranteed never to settle — if the engine's first input
request arrives afterwards, that call's resolver fires (here with the update
event's text), and the history entry persists with its response filled. -/
theorem executeCommand_no_pending_settles_cex :
    resolutions (adapterRun adapterInit
        [.startCall, .execCall "wait", .update sampleReqUpdate]).snd =
      [(.execOwner 0, "Nothing special.")] ∧
    (adapterRun adapterInit
        [.startCall, .execCall "wait", .update sampleReqUpdate]).fst.history =
      [{ turnNumber := 0, command := "wait", response := "Nothing special.",
         timestamp := 0 }] := ⟨rfl, rfl⟩
